import Mathlib

/- Verification of the booking-coordination application (src/Main.py).
   Times are modelled as minutes in the local timezone since a fixed local
   midnight epoch, so `hour` of an instant is (t / 60) % 24, days start at
   multiples of 1440, and a one-hour slot spans 60 minutes.  Calendar and
   network effects are modelled as explicit environment values; a Python
   exception that escapes a handler is modelled as an `Except.error`. -/

namespace UserStudy

/-- Minutes since the local epoch midnight. -/
abbrev Minutes := Nat

/-- The `datetime.hour` field of a local instant. -/
def hourOf (t : Minutes) : Nat := t / 60 % 24

/-- A half-open one-interval (start, end); `stop` stands for Python's `end`. -/
structure Interval where
  start : Minutes
  stop : Minutes
deriving DecidableEq, Repr

/-- A failure of the external calendar (service construction or free/busy query). -/
inductive CalendarError
| unreachable
deriving DecidableEq, Repr

instance {ε α : Type} [DecidableEq ε] [DecidableEq α] : DecidableEq (Except ε α)
  | .error a, .error b =>
      if h : a = b then .isTrue (by rw [h]) else .isFalse (by simp [h])
  | .error _, .ok _ => .isFalse (by simp)
  | .ok _, .error _ => .isFalse (by simp)
  | .ok a, .ok b =>
      if h : a = b then .isTrue (by rw [h]) else .isFalse (by simp [h])

/-- Embeds `is_free` (src/Main.py lines 377-395): first the admin block-list is
consulted with an exact `start_time = ? AND end_time = ?` match; then every busy
block returned by the free/busy query is tested with the half-open overlap test
`not (end_local <= bstart or start_local >= bend)`.  A free/busy failure
propagates out of the function as an exception. -/
def is_free (blockedSlots : List Interval)
    (freebusy : Except CalendarError (List Interval))
    (startLocal endLocal : Minutes) : Except CalendarError Bool :=
  if blockedSlots.any (fun b => b.start == startLocal && b.stop == endLocal) then
    .ok false
  else
    match freebusy with
    | .error e => .error e
    | .ok busy =>
        .ok (busy.all (fun b => decide (endLocal ≤ b.start) || decide (startLocal ≥ b.stop)))

/-- The booking lifecycle states stored in the `status` column. -/
inductive BookingStatus
| pending
| confirmed
| rejected
| removed_by_admin
deriving DecidableEq, Repr

/-- A row of the `bookings` table (schema at src/Main.py lines 79-95). -/
structure Booking where
  participant_id : Nat
  preference1 : Interval
  preference2 : Option Interval
  preference3 : Option Interval
  selected_start_time : Option Minutes
  selected_end_time : Option Minutes
  status : BookingStatus
  calendar_event_id : Option Nat
  admin_confirmed_at : Option Nat
deriving DecidableEq, Repr

/-- The stored candidate preferences of a booking row, in order. -/
def candidatesOf (b : Booking) : List Interval :=
  b.preference1 :: (b.preference2.toList ++ b.preference3.toList)

/-- Outcome of the external calendar during the approve branch:
whether `calendar_service()` succeeds, and the event id produced by the insert
on the configured calendar and by the fallback insert on "primary" (none =
the call raises).  `configuredIsPrimary` records whether `CALENDAR_ID or
"primary"` already equals "primary", in which case no fallback is attempted. -/
structure ApproveEnv where
  serviceOk : Bool
  insertConfigured : Option Nat
  insertPrimary : Option Nat
  configuredIsPrimary : Bool
deriving DecidableEq, Repr

/-- The event id obtained by the create-with-fallback logic
(src/Main.py lines 1690-1721), none when the whole attempt raises. -/
def createEventOutcome (env : ApproveEnv) : Option Nat :=
  if !env.serviceOk then none
  else
    match env.insertConfigured with
    | some eid => some eid
    | none => if env.configuredIsPrimary then none else env.insertPrimary

/-- Result of the approve branch: the row afterwards, the external event
created (if any), and the query-string message of the redirect (none models
a plain `redirect(url_for("admin"))`). -/
structure ApproveResult where
  booking : Booking
  eventCreated : Option Nat
  msg : Option String
deriving DecidableEq, Repr

/-- Embeds the approve branch of `admin_bookings` (src/Main.py lines 1658-1746):
fetch the row with `status = 'pending'` (otherwise plain redirect); create the
calendar event with fallback (an exception leaves the row untouched and
redirects plainly); on success update status, selected times, event id and
resolution timestamp in one UPDATE, then redirect with msg booking_approved.
The supplied (selStart, selEnd) interval is taken from the form action and is
never compared with the stored candidate preferences. -/
def approve (b : Booking) (selStart selEnd : Minutes) (env : ApproveEnv)
    (nowTs : Nat) : ApproveResult :=
  if b.status ≠ .pending then ⟨b, none, none⟩
  else
    match createEventOutcome env with
    | none => ⟨b, none, none⟩
    | some eid =>
        ⟨⟨b.participant_id, b.preference1, b.preference2, b.preference3,
          some selStart, some selEnd, .confirmed, some eid, some nowTs⟩,
         some eid, some "booking_approved"⟩

/-- Embeds the reject branch (src/Main.py lines 1748-1760): a conditional
`UPDATE ... WHERE id = ? AND status = 'pending'` followed unconditionally by a
redirect with msg booking_rejected, whether or not any row matched. -/
def reject (b : Booking) (nowTs : Nat) : Booking × String :=
  (if b.status = .pending
     then ⟨b.participant_id, b.preference1, b.preference2, b.preference3,
           b.selected_start_time, b.selected_end_time, .rejected,
           b.calendar_event_id, some nowTs⟩
     else b,
   "booking_rejected")

/-- Outcome of the external calendar during the remove branch: whether
`calendar_service()` succeeds, and whether the delete call succeeds on the
configured calendar and on the "primary" fallback. -/
structure RemoveEnv where
  serviceOk : Bool
  deleteConfiguredOk : Bool
  deletePrimaryOk : Bool
  configuredIsPrimary : Bool
deriving DecidableEq, Repr

/-- Result of the remove branch: the row afterwards and the redirect message. -/
structure RemoveResult where
  booking : Booking
  msg : String
deriving DecidableEq, Repr

/-- Embeds the remove branch (src/Main.py lines 1762-1898): requires
`status = 'confirmed'` (otherwise msg booking_not_found); when an event id is
stored, `calendar_service()` is constructed inside the outer try, so a
construction failure aborts the whole branch with msg removal_failed and no row
change; failures of the delete calls themselves (configured target, then the
"primary" fallback) are caught and only logged; the UPDATE sets
status = removed_by_admin and clears calendar_event_id, leaving the selected
times untouched. -/
def removeBooking (b : Booking) (env : RemoveEnv) : RemoveResult :=
  if b.status ≠ .confirmed then ⟨b, "booking_not_found"⟩
  else if b.calendar_event_id.isSome && !env.serviceOk then ⟨b, "removal_failed"⟩
  else ⟨⟨b.participant_id, b.preference1, b.preference2, b.preference3,
         b.selected_start_time, b.selected_end_time, .removed_by_admin,
         none, b.admin_confirmed_at⟩,
        "booking_removed"⟩

/-- An admin resolution action together with its environment. -/
inductive AdminOp
| approveOp (selStart selEnd : Minutes) (env : ApproveEnv) (nowTs : Nat)
| rejectOp (nowTs : Nat)
| removeOp (env : RemoveEnv)

/-- The effect of one admin action on a booking row. -/
def applyOp (b : Booking) : AdminOp → Booking
| .approveOp s e env nowTs => (approve b s e env nowTs).booking
| .rejectOp nowTs => (reject b nowTs).1
| .removeOp env => (removeBooking b env).booking

/-- The row after a sequence of admin actions. -/
def runOps (b : Booking) (ops : List AdminOp) : Booking := ops.foldl applyOp b

/-- Embeds the per-slot validation of the `book` endpoint
(src/Main.py lines 3120-3132): duration exactly one hour, start strictly in
the future, and `start.hour >= 9 and end.hour <= 25`; returns the error
message of the redirect when a rule fails. -/
def validateSlot (nowL : Minutes) (iv : Interval) : Option String :=
  if iv.stop ≠ iv.start + 60 then some "Invalid slot length."
  else if iv.start ≤ nowL then some "That time is in the past."
  else if ¬ (9 ≤ hourOf iv.start ∧ hourOf iv.stop ≤ 25) then
    some "Outside bookable hours."
  else none

/-- How a booking submission can fail: a redirect back to the invite page with
an error message, the unhandled exception of a free/busy failure (HTTP 500),
or the `abort(400)` for a request without slots.  In every case nothing is
persisted. -/
inductive BookFailure
| validation (msg : String)
| calendarCrash
| badRequest
deriving DecidableEq, Repr

/-- The sequential validation loop of `book` (src/Main.py lines 3120-3138):
the first slot failing a rule redirects with that rule's message; an
availability re-check failure redirects with the slot-taken message; a
free/busy exception escapes the handler. -/
def bookScan (nowL : Minutes) (blocked : List Interval)
    (fbFor : Interval → Except CalendarError (List Interval)) :
    List Interval → Option BookFailure
| [] => none
| iv :: rest =>
  match validateSlot nowL iv with
  | some m => some (.validation m)
  | none =>
    match is_free blocked (fbFor iv) iv.start iv.stop with
    | .error _ => some .calendarCrash
    | .ok false => some (.validation "Sorry, one of your selected slots was just taken.")
    | .ok true => bookScan nowL blocked fbFor rest

/-- The INSERT of `book` (src/Main.py lines 3141-3163): one pending row
holding all validated candidates; lists of other lengths insert nothing. -/
def insertBooking (pid : Nat) : List Interval → List Booking
| [a] => [⟨pid, a, none, none, none, none, .pending, none, none⟩]
| [a, b] => [⟨pid, a, some b, none, none, none, .pending, none, none⟩]
| [a, b, c] => [⟨pid, a, some b, some c, none, none, .pending, none, none⟩]
| _ => []

/-- Embeds the `book` endpoint (src/Main.py lines 3096-3163): returns the list
of rows persisted together with the failure, if any. -/
def book (nowL : Minutes) (blocked : List Interval)
    (fbFor : Interval → Except CalendarError (List Interval))
    (pid : Nat) (slots : List Interval) : List Booking × Option BookFailure :=
  if slots.isEmpty then ([], some .badRequest)
  else
    match bookScan nowL blocked fbFor slots with
    | some f => ([], some f)
    | none => (insertBooking pid slots, none)

/-- Status of a slot cell on the participant invite page. -/
inductive SlotStatus
| past
| unavailable
| available
deriving DecidableEq, Repr

/-- One rendered slot cell: status, the booking URL (token and the slot's
start/end query parameters; none models `url = ""`), and the slot bounds. -/
structure ViewSlot where
  status : SlotStatus
  url : Option (Nat × Interval)
  start : Minutes
  stop : Minutes
deriving DecidableEq, Repr

/-- The slot for the given day index (day d starts at minute 1440 * d) and
display hour, mirroring src/Main.py lines 3031-3037: hour 24 is rendered as
00:00 of the next day. -/
def slotIntervalFor (d : Nat) (hour : Nat) : Interval :=
  let s := if hour = 24 then (d + 1) * 1440 else d * 1440 + hour * 60
  ⟨s, s + 60⟩

/-- The 16 one-hour slots a day of the invite page displays
(`for hour in range(9, 25)`), and likewise `slot_range_for_day`
(src/Main.py lines 359-365). -/
def dayIntervals (d : Nat) : List Interval :=
  (List.range' 9 16).map (slotIntervalFor d)

/-- Embeds the per-slot status logic of `invite` (src/Main.py lines 3039-3053):
past when start is not in the future; unavailable when the calendar service
could not be constructed; otherwise `is_free` decides, and an available slot
carries a /book URL with the token and the slot bounds.  A free/busy exception
escapes the loop. -/
def renderSlot (nowL : Minutes) (token : Nat) (calendarAvailable : Bool)
    (blocked : List Interval)
    (fbFor : Interval → Except CalendarError (List Interval))
    (iv : Interval) : Except CalendarError ViewSlot :=
  if iv.start ≤ nowL then .ok ⟨.past, none, iv.start, iv.stop⟩
  else if !calendarAvailable then .ok ⟨.unavailable, none, iv.start, iv.stop⟩
  else
    match is_free blocked (fbFor iv) iv.start iv.stop with
    | .error e => .error e
    | .ok true => .ok ⟨.available, some (token, iv), iv.start, iv.stop⟩
    | .ok false => .ok ⟨.unavailable, none, iv.start, iv.stop⟩

/-- The sequential slot loop of `invite`: an exception at any slot aborts the
whole request. -/
def renderSlots (nowL : Minutes) (token : Nat) (calendarAvailable : Bool)
    (blocked : List Interval)
    (fbFor : Interval → Except CalendarError (List Interval)) :
    List Interval → Except CalendarError (List ViewSlot)
| [] => .ok []
| iv :: rest =>
  match renderSlot nowL token calendarAvailable blocked fbFor iv with
  | .error e => .error e
  | .ok s =>
    match renderSlots nowL token calendarAvailable blocked fbFor rest with
    | .error e => .error e
    | .ok ss => .ok (s :: ss)

/-- The rendered slot column of one day of the invite page. -/
def inviteDaySlots (d : Nat) (nowL : Minutes) (token : Nat)
    (calendarAvailable : Bool) (blocked : List Interval)
    (fbFor : Interval → Except CalendarError (List Interval)) :
    Except CalendarError (List ViewSlot) :=
  renderSlots nowL token calendarAvailable blocked fbFor (dayIntervals d)

/-- The degraded-mode notice of `invite` (src/Main.py lines 3080-3082),
shown exactly when the calendar service could not be constructed. -/
def inviteErrorMsg (calendarAvailable : Bool) : Option String :=
  if calendarAvailable then none
  else some "Calendar system is not connected. All slots are currently unavailable. Please contact the administrator."

/-- The row invariants that actually hold of every reachable booking row:
an event id is recorded iff the row is confirmed, and the selected interval
is set iff the row is confirmed or was removed after confirmation. -/
def RowInvariant (b : Booking) : Prop :=
  (b.status = .confirmed ↔ b.calendar_event_id.isSome = true) ∧
  (b.selected_start_time.isSome = true ↔
    (b.status = .confirmed ∨ b.status = .removed_by_admin)) ∧
  (b.selected_end_time.isSome = true ↔
    (b.status = .confirmed ∨ b.status = .removed_by_admin))

/-- A booking row reachable from some submission by a sequence of admin
resolution actions. -/
def ReachableRow (b : Booking) : Prop :=
  ∃ pid slots row ops, insertBooking pid slots = [row] ∧ b = runOps row ops

/-- The row left by the Submit - Approve(candidate2) - Remove round trip on a
concrete three-candidate booking (day 45, slots 9:00, 11:00, 13:00; the 11:00
candidate approved with event id 7; the remove performed while both delete
calls fail). -/
def roundtripRemoveRow : Booking :=
  runOps
    ⟨1, ⟨65340, 65400⟩, some ⟨65460, 65520⟩, some ⟨65580, 65640⟩,
     none, none, .pending, none, none⟩
    [.approveOp 65460 65520 ⟨true, some 7, none, false⟩ 9,
     .removeOp ⟨true, false, false, false⟩]

/-- C1 (counterexample): the approve branch confirms a pending booking at an
interval that is none of the stored candidate preferences; the chosen
(start, end) pair from the form action is never compared with the stored
candidates. -/
theorem approve_noncandidate_interval_confirmed :
    (approve ⟨1, ⟨65340, 65400⟩, none, none, none, none, .pending, none, none⟩
        70000 70060 ⟨true, some 42, none, false⟩ 5).booking.status = .confirmed
    ∧ (approve ⟨1, ⟨65340, 65400⟩, none, none, none, none, .pending, none, none⟩
        70000 70060 ⟨true, some 42, none, false⟩ 5).booking.selected_start_time
        = some 70000
    ∧ (⟨70000, 70060⟩ : Interval) ∉ candidatesOf
        ⟨1, ⟨65340, 65400⟩, none, none, none, none, .pending, none, none⟩ := by
  decide

/-- C1 (amended): for every pending booking, Approve confirms the booking at
whatever (start, end) interval the request supplies, as soon as the calendar
event creation succeeds; membership of the interval among the booking's stored
candidates is not checked. -/
theorem approve_accepts_any_interval :
    ∀ (b : Booking) (s e : Minutes) (env : ApproveEnv) (nowTs eid : Nat),
      b.status = .pending → createEventOutcome env = some eid →
      approve b s e env nowTs =
        ⟨⟨b.participant_id, b.preference1, b.preference2, b.preference3,
          some s, some e, .confirmed, some eid, some nowTs⟩,
         some eid, some "booking_approved"⟩ := by
  intro b s e env nowTs eid hb hc
  simp [approve, hb, hc]

/-- Witness for C1's amended theorem at a concrete pending booking and a
successful calendar environment. -/
theorem approve_accepts_any_interval_witness :
    approve ⟨1, ⟨65340, 65400⟩, none, none, none, none, .pending, none, none⟩
        70000 70060 ⟨true, some 42, none, false⟩ 5 =
      ⟨⟨1, ⟨65340, 65400⟩, none, none, some 70000, some 70060, .confirmed,
        some 42, some 5⟩,
       some 42, some "booking_approved"⟩ :=
  approve_accepts_any_interval
    ⟨1, ⟨65340, 65400⟩, none, none, none, none, .pending, none, none⟩
    70000 70060 ⟨true, some 42, none, false⟩ 5 42 rfl rfl

/-- C3: if the event insert fails on the configured calendar and on the
"primary" fallback, the approve branch leaves the booking row entirely
unchanged (no status change, no selected interval, no event id, no resolution
timestamp), and a row becomes confirmed only when the event creation succeeded,
recording exactly that event's id. -/
theorem approve_failure_leaves_booking_unchanged :
    (∀ (b : Booking) (s e : Minutes) (env : ApproveEnv) (nowTs : Nat),
       env.insertConfigured = none → env.insertPrimary = none →
       approve b s e env nowTs = ⟨b, none, none⟩) ∧
    (∀ (b : Booking) (s e : Minutes) (env : ApproveEnv) (nowTs : Nat),
       b.status = .pending →
       (approve b s e env nowTs).booking.status = .confirmed →
       ∃ eid, createEventOutcome env = some eid ∧
         (approve b s e env nowTs).booking =
           ⟨b.participant_id, b.preference1, b.preference2, b.preference3,
            some s, some e, .confirmed, some eid, some nowTs⟩) := by
  constructor
  · intro b s e env nowTs h1 h2
    have hc : createEventOutcome env = none := by
      cases hsvc : env.serviceOk <;> simp [createEventOutcome, hsvc, h1, h2]
    by_cases hb : b.status = .pending <;> simp [approve, hb, hc]
  · intro b s e env nowTs hb hres
    cases hc : createEventOutcome env with
    | none => simp [approve, hb, hc] at hres
    | some eid =>
        refine ⟨eid, rfl, ?_⟩
        simp [approve, hb, hc]

/-- Witness for C3 at a concrete pending booking and an environment in which
both inserts fail. -/
theorem approve_failure_leaves_booking_unchanged_witness :
    approve ⟨1, ⟨65340, 65400⟩, none, none, none, none, .pending, none, none⟩
        65340 65400 ⟨true, none, none, false⟩ 5 =
      ⟨⟨1, ⟨65340, 65400⟩, none, none, none, none, .pending, none, none⟩,
       none, none⟩ :=
  approve_failure_leaves_booking_unchanged.1
    ⟨1, ⟨65340, 65400⟩, none, none, none, none, .pending, none, none⟩
    65340 65400 ⟨true, none, none, false⟩ 5 rfl rfl

/-- C6 (counterexample): a candidate (9:30-10:30) that properly overlaps an
admin BlockedSlot (9:00-10:00) without being equal to it is classified as
available when the external calendar reports no busy block: the block-list
check matches on exact (start, end) equality only. -/
theorem overlapping_blocked_slot_ignored :
    is_free [⟨540, 600⟩] (.ok []) 570 630 = .ok true
    ∧ ¬ (630 ≤ 540 ∨ 570 ≥ 600) := by
  decide

/-- C6 (amended): a BlockedSlot makes a candidate unavailable exactly when the
candidate's (start, end) equals the BlockedSlot's (start, end); a BlockedSlot
that merely overlaps the candidate has no effect on the verdict. -/
theorem blocked_slot_requires_exact_match :
    (∀ (blocked : List Interval) (fb : Except CalendarError (List Interval))
       (s e : Minutes),
       (∃ bl ∈ blocked, bl.start = s ∧ bl.stop = e) →
       is_free blocked fb s e = .ok false) ∧
    (∀ (blocked : List Interval) (s e : Minutes),
       (∀ bl ∈ blocked, ¬ (bl.start = s ∧ bl.stop = e)) →
       is_free blocked (.ok []) s e = .ok true) := by
  constructor
  · intro blocked fb s e hmem
    obtain ⟨bl, hbl, hs, he⟩ := hmem
    have hany : blocked.any (fun b => b.start == s && b.stop == e) = true := by
      simp only [List.any_eq_true]
      exact ⟨bl, hbl, by simp [hs, he]⟩
    simp [is_free, hany]
  · intro blocked s e hall
    have hany : blocked.any (fun b => b.start == s && b.stop == e) = false := by
      simp only [List.any_eq_false]
      intro bl hbl
      have := hall bl hbl
      simp only [Bool.and_eq_true, beq_iff_eq, not_and]
      intro h1 h2
      exact this ⟨h1, h2⟩
    simp [is_free, hany]

/-- Witness for C6's amended theorem: the exact-match direction at a concrete
block list, and the no-exact-match direction on the overlapping example. -/
theorem blocked_slot_requires_exact_match_witness :
    is_free [⟨540, 600⟩] (.ok []) 540 600 = .ok false
    ∧ is_free [⟨540, 600⟩] (.ok []) 570 630 = .ok true :=
  ⟨blocked_slot_requires_exact_match.1 [⟨540, 600⟩] (.ok []) 540 600
      ⟨⟨540, 600⟩, by decide, rfl, rfl⟩,
   blocked_slot_requires_exact_match.2 [⟨540, 600⟩] 570 630 (by decide)⟩

/-- C7: with no BlockedSlot involved, a candidate is judged unavailable exactly
when some busy block b satisfies NOT (end <= b.start or start >= b.stop); in
particular a candidate exactly bordering a busy 10:00-11:00 block (9:00-10:00
or 11:00-12:00) is available, and 9:30-10:30 is unavailable. -/
theorem busy_overlap_half_open_semantics :
    (∀ (busy : List Interval) (s e : Minutes),
       is_free [] (.ok busy) s e = .ok false ↔
         ∃ b ∈ busy, ¬ (e ≤ b.start ∨ s ≥ b.stop)) ∧
    is_free [] (.ok [⟨600, 660⟩]) 540 600 = .ok true ∧
    is_free [] (.ok [⟨600, 660⟩]) 660 720 = .ok true ∧
    is_free [] (.ok [⟨600, 660⟩]) 570 630 = .ok false := by
  refine ⟨?_, by decide, by decide, by decide⟩
  intro busy s e
  simp only [is_free, List.any_nil, Bool.false_eq_true, if_false,
    Except.ok.injEq]
  rw [← Bool.not_eq_true, List.all_eq_true]
  push_neg
  simp

/-- C8 (counterexample): removing a confirmed booking with a stored event
reference while the calendar service cannot be constructed aborts the whole
operation: the row keeps status confirmed and its event id, and the admin is
told "removal_failed" - the state transition is blocked. -/
theorem remove_aborts_when_service_unreachable :
    removeBooking
        ⟨1, ⟨1980, 2040⟩, none, none, some 1980, some 2040, .confirmed,
         some 42, some 5⟩
        ⟨false, false, false, false⟩
      = ⟨⟨1, ⟨1980, 2040⟩, none, none, some 1980, some 2040, .confirmed,
          some 42, some 5⟩,
         "removal_failed"⟩
    ∧ (removeBooking
        ⟨1, ⟨1980, 2040⟩, none, none, some 1980, some 2040, .confirmed,
         some 42, some 5⟩
        ⟨false, false, false, false⟩).booking.status ≠ .removed_by_admin := by
  decide

/-- C8 (amended): once the calendar service is constructed, failures of the
delete calls themselves (on the configured calendar and on the "primary"
fallback) never block the removal: the row moves to removed_by_admin with the
event reference cleared regardless of the delete outcomes; but when the
calendar service cannot be constructed at all, the operation aborts with
"removal_failed" and the row is unchanged. -/
theorem remove_ignores_delete_call_failures :
    ∀ (b : Booking) (env : RemoveEnv),
      b.status = .confirmed →
      (env.serviceOk = true →
        removeBooking b env =
          ⟨⟨b.participant_id, b.preference1, b.preference2, b.preference3,
            b.selected_start_time, b.selected_end_time, .removed_by_admin,
            none, b.admin_confirmed_at⟩,
           "booking_removed"⟩) ∧
      (env.serviceOk = false → b.calendar_event_id.isSome = true →
        removeBooking b env = ⟨b, "removal_failed"⟩) := by
  intro b env hb
  constructor
  · intro hsvc
    simp [removeBooking, hb, hsvc]
  · intro hsvc hev
    simp [removeBooking, hb, hsvc, hev]

/-- Witness for C8's amended theorem: a concrete confirmed booking whose
delete calls both fail is still removed and loses its event reference. -/
theorem remove_ignores_delete_call_failures_witness :
    removeBooking
        ⟨1, ⟨1980, 2040⟩, none, none, some 1980, some 2040, .confirmed,
         some 42, some 5⟩
        ⟨true, false, false, false⟩
      = ⟨⟨1, ⟨1980, 2040⟩, none, none, some 1980, some 2040,
          .removed_by_admin, none, some 5⟩,
         "booking_removed"⟩ :=
  (remove_ignores_delete_call_failures
      ⟨1, ⟨1980, 2040⟩, none, none, some 1980, some 2040, .confirmed,
       some 42, some 5⟩
      ⟨true, false, false, false⟩ rfl).1 rfl

/-- C5 (counterexample): rejecting a booking that is already confirmed changes
nothing but is reported to the admin as "booking_rejected" - a success
message - not as "booking not found". -/
theorem reject_confirmed_reports_success :
    reject ⟨1, ⟨1980, 2040⟩, none, none, some 1980, some 2040, .confirmed,
        some 42, some 5⟩ 7
      = (⟨1, ⟨1980, 2040⟩, none, none, some 1980, some 2040, .confirmed,
          some 42, some 5⟩,
         "booking_rejected")
    ∧ "booking_rejected" ≠ "booking_not_found" := by
  constructor
  · rfl
  · decide

/-- C5 (amended): resolving a booking in the wrong state is a no-op on the row
and creates no external event, but only Remove reports "booking_not_found";
Approve answers with a plain redirect carrying no message, and Reject reports
"booking_rejected" even though nothing changed.  In particular a second
Approve of a confirmed booking changes nothing and creates no second event. -/
theorem wrong_status_resolution_is_noop :
    ∀ (b : Booking) (s e : Minutes) (envA : ApproveEnv) (nowTs nowR : Nat)
      (envR : RemoveEnv),
      (b.status ≠ .pending →
         approve b s e envA nowTs = ⟨b, none, none⟩ ∧
         reject b nowR = (b, "booking_rejected")) ∧
      (b.status ≠ .confirmed →
         removeBooking b envR = ⟨b, "booking_not_found"⟩) := by
  intro b s e envA nowTs nowR envR
  constructor
  · intro hb
    exact ⟨by simp [approve, hb], by simp [reject, hb]⟩
  · intro hb
    simp [removeBooking, hb]

/-- Witness for C5's amended theorem: a second Approve of a concrete confirmed
booking is a no-op that creates no event, and Remove of a pending booking
reports "booking_not_found". -/
theorem wrong_status_resolution_is_noop_witness :
    (approve ⟨1, ⟨1980, 2040⟩, none, none, some 1980, some 2040, .confirmed,
        some 42, some 5⟩ 1980 2040 ⟨true, some 43, none, false⟩ 6
      = ⟨⟨1, ⟨1980, 2040⟩, none, none, some 1980, some 2040, .confirmed,
          some 42, some 5⟩, none, none⟩
    ∧ reject ⟨1, ⟨1980, 2040⟩, none, none, some 1980, some 2040, .confirmed,
        some 42, some 5⟩ 6
      = (⟨1, ⟨1980, 2040⟩, none, none, some 1980, some 2040, .confirmed,
          some 42, some 5⟩, "booking_rejected"))
    ∧ removeBooking ⟨1, ⟨1980, 2040⟩, none, none, none, none, .pending,
        none, none⟩ ⟨true, true, true, false⟩
      = ⟨⟨1, ⟨1980, 2040⟩, none, none, none, none, .pending, none, none⟩,
         "booking_not_found"⟩ :=
  ⟨(wrong_status_resolution_is_noop
      ⟨1, ⟨1980, 2040⟩, none, none, some 1980, some 2040, .confirmed,
       some 42, some 5⟩ 1980 2040 ⟨true, some 43, none, false⟩ 6 6
      ⟨true, true, true, false⟩).1 (by decide),
   (wrong_status_resolution_is_noop
      ⟨1, ⟨1980, 2040⟩, none, none, none, none, .pending, none, none⟩
      1980 2040 ⟨true, some 43, none, false⟩ 6 6
      ⟨true, true, true, false⟩).2 (by decide)⟩

/-- One admin action preserves the row invariants. -/
theorem applyOp_preserves (b : Booking) (op : AdminOp) (h : RowInvariant b) :
    RowInvariant (applyOp b op) := by
  obtain ⟨h1, h2, h3⟩ := h
  cases op with
  | approveOp s e env nowTs =>
      by_cases hb : b.status = .pending
      · cases hc : createEventOutcome env with
        | none =>
            have heq : applyOp b (.approveOp s e env nowTs) = b := by
              simp [applyOp, approve, hb, hc]
            rw [heq]; exact ⟨h1, h2, h3⟩
        | some eid =>
            have heq : applyOp b (.approveOp s e env nowTs) =
                ⟨b.participant_id, b.preference1, b.preference2, b.preference3,
                 some s, some e, .confirmed, some eid, some nowTs⟩ := by
              simp [applyOp, approve, hb, hc]
            rw [heq]
            simp [RowInvariant]
      · have heq : applyOp b (.approveOp s e env nowTs) = b := by
          simp [applyOp, approve, hb]
        rw [heq]; exact ⟨h1, h2, h3⟩
  | rejectOp nowTs =>
      by_cases hb : b.status = .pending
      · have hev : ¬ b.calendar_event_id.isSome = true := fun hh => by
          rw [hb] at h1
          exact absurd (h1.mpr hh) (by decide)
        have hss : ¬ b.selected_start_time.isSome = true := fun hh => by
          rw [hb] at h2
          rcases h2.mp hh with hcase | hcase <;> exact absurd hcase (by decide)
        have hse : ¬ b.selected_end_time.isSome = true := fun hh => by
          rw [hb] at h3
          rcases h3.mp hh with hcase | hcase <;> exact absurd hcase (by decide)
        have heq : applyOp b (.rejectOp nowTs) =
            ⟨b.participant_id, b.preference1, b.preference2, b.preference3,
             b.selected_start_time, b.selected_end_time, .rejected,
             b.calendar_event_id, some nowTs⟩ := by
          simp [applyOp, reject, hb]
        rw [heq]
        simp [RowInvariant, hev, hss, hse]
      · have heq : applyOp b (.rejectOp nowTs) = b := by
          simp [applyOp, reject, hb]
        rw [heq]; exact ⟨h1, h2, h3⟩
  | removeOp env =>
      by_cases hb : b.status = .confirmed
      · by_cases hs : (b.calendar_event_id.isSome && !env.serviceOk) = true
        · have heq : applyOp b (.removeOp env) = b := by
            simp [applyOp, removeBooking, hb, hs]
          rw [heq]; exact ⟨h1, h2, h3⟩
        · have hsel1 : b.selected_start_time.isSome = true := h2.mpr (Or.inl hb)
          have hsel2 : b.selected_end_time.isSome = true := h3.mpr (Or.inl hb)
          have heq : applyOp b (.removeOp env) =
              ⟨b.participant_id, b.preference1, b.preference2, b.preference3,
               b.selected_start_time, b.selected_end_time, .removed_by_admin,
               none, b.admin_confirmed_at⟩ := by
            simp only [applyOp, removeBooking]
            rw [if_neg (by simp [hb]), if_neg hs]
          rw [heq]
          simp [RowInvariant, hsel1, hsel2]
      · have heq : applyOp b (.removeOp env) = b := by
          simp [applyOp, removeBooking, hb]
        rw [heq]; exact ⟨h1, h2, h3⟩

/-- A sequence of admin actions preserves the row invariants. -/
theorem runOps_preserves (ops : List AdminOp) :
    ∀ b : Booking, RowInvariant b → RowInvariant (runOps b ops) := by
  induction ops with
  | nil => intro b h; simpa [runOps] using h
  | cons op rest ih =>
      intro b h
      have heq : runOps b (op :: rest) = runOps (applyOp b op) rest := by
        simp [runOps]
      rw [heq]
      exact ih _ (applyOp_preserves b op h)

/-- A freshly inserted submission row satisfies the row invariants. -/
theorem insertBooking_row_invariant (pid : Nat) (slots : List Interval)
    (row : Booking) (h : insertBooking pid slots = [row]) : RowInvariant row := by
  rcases slots with _ | ⟨a, _ | ⟨b2, _ | ⟨c, _ | ⟨d, rest⟩⟩⟩⟩
  · simp [insertBooking] at h
  · simp [insertBooking] at h
    rw [← h]; simp [RowInvariant]
  · simp [insertBooking] at h
    rw [← h]; simp [RowInvariant]
  · simp [insertBooking] at h
    rw [← h]; simp [RowInvariant]
  · rw [show insertBooking pid (a :: b2 :: c :: d :: rest) = [] from rfl] at h
    exact absurd h (by simp)

/-- C2 (counterexample): the Submit - Approve(candidate2) - Remove round trip
leaves a row with status removed_by_admin and no event id whose selected
interval is still set (the remove branch clears only calendar_event_id), so
status=confirmed is not equivalent to the selected interval being set. -/
theorem remove_keeps_selected_interval :
    roundtripRemoveRow.status = .removed_by_admin
    ∧ roundtripRemoveRow.calendar_event_id = none
    ∧ roundtripRemoveRow.selected_start_time = some 65460
    ∧ roundtripRemoveRow.selected_end_time = some 65520
    ∧ ¬ (roundtripRemoveRow.status = .confirmed ↔
          roundtripRemoveRow.selected_start_time.isSome = true)
    ∧ roundtripRemoveRow.preference1 = ⟨65340, 65400⟩
    ∧ roundtripRemoveRow.preference3 = some ⟨65580, 65640⟩ := by
  decide

/-- C2 (amended): for every reachable booking row, status=confirmed holds iff
an external event id is recorded, and the selected interval is set iff the
status is confirmed or removed_by_admin; Submit then Approve then Remove ends
with status removed_by_admin and event id null, while the selected interval
remains set to the approved candidate and the original candidates stay on the
historical record. -/
theorem reachable_booking_invariant :
    (∀ b : Booking, ReachableRow b → RowInvariant b) ∧
    (∀ (pid : Nat) (a b2 c : Interval) (s e : Minutes) (eid nowTs : Nat)
       (envA : ApproveEnv) (envR : RemoveEnv),
       createEventOutcome envA = some eid → envR.serviceOk = true →
       runOps ⟨pid, a, some b2, some c, none, none, .pending, none, none⟩
         [.approveOp s e envA nowTs, .removeOp envR] =
         ⟨pid, a, some b2, some c, some s, some e, .removed_by_admin,
          none, some nowTs⟩) := by
  constructor
  · rintro b ⟨pid, slots, row, ops, hins, rfl⟩
    exact runOps_preserves ops row (insertBooking_row_invariant pid slots row hins)
  · intro pid a b2 c s e eid nowTs envA envR hc hsvc
    simp [runOps, applyOp, approve, removeBooking, hc, hsvc]

/-- Witness for C2's amended theorem: the invariants at a concrete fresh
submission row, and the round trip evaluated at concrete candidates with both
delete calls failing. -/
theorem reachable_booking_invariant_witness :
    RowInvariant ⟨1, ⟨65340, 65400⟩, none, none, none, none, .pending,
        none, none⟩
    ∧ runOps ⟨1, ⟨65340, 65400⟩, some ⟨65460, 65520⟩, some ⟨65580, 65640⟩,
        none, none, .pending, none, none⟩
        [.approveOp 65460 65520 ⟨true, some 7, none, false⟩ 9,
         .removeOp ⟨true, false, false, false⟩] =
      ⟨1, ⟨65340, 65400⟩, some ⟨65460, 65520⟩, some ⟨65580, 65640⟩,
       some 65460, some 65520, .removed_by_admin, none, some 9⟩ :=
  ⟨reachable_booking_invariant.1
      ⟨1, ⟨65340, 65400⟩, none, none, none, none, .pending, none, none⟩
      ⟨1, [⟨65340, 65400⟩],
       ⟨1, ⟨65340, 65400⟩, none, none, none, none, .pending, none, none⟩,
       [], rfl, rfl⟩,
   reachable_booking_invariant.2 1 ⟨65340, 65400⟩ ⟨65460, 65520⟩
     ⟨65580, 65640⟩ 65460 65520 7 9 ⟨true, some 7, none, false⟩
     ⟨true, false, false, false⟩ rfl rfl⟩

/-- The validation loop of `book` accepts (reaches the INSERT) exactly when
every submitted slot passes validation and the availability re-check. -/
theorem bookScan_eq_none_iff (nowL : Minutes) (blocked : List Interval)
    (fbFor : Interval → Except CalendarError (List Interval)) :
    ∀ slots : List Interval,
      bookScan nowL blocked fbFor slots = none ↔
        ∀ iv ∈ slots, validateSlot nowL iv = none ∧
          is_free blocked (fbFor iv) iv.start iv.stop = .ok true := by
  intro slots
  induction slots with
  | nil => simp [bookScan]
  | cons iv rest ih =>
      cases hv : validateSlot nowL iv with
      | some m => simp [bookScan, hv]
      | none =>
          cases hf : is_free blocked (fbFor iv) iv.start iv.stop with
          | error e2 => simp [bookScan, hv, hf]
          | ok fr =>
              cases fr
              · simp [bookScan, hv, hf]
              · simp [bookScan, hv, hf, ih]

/-- A slot whose start hour is below 9 never passes the `book` validation. -/
theorem validateSlot_hour_fail (nowL : Minutes) (iv : Interval)
    (h9 : hourOf iv.start < 9) : validateSlot nowL iv ≠ none := by
  unfold validateSlot
  split_ifs with h1 h2 h3 <;> simp
  omega

/-- C4 (counterexample): two submissions in which a different candidate (the
second vs the third) fails the availability re-check produce the very same
response, so the response does not identify which candidate failed; the fixed
message is "Sorry, one of your selected slots was just taken." -/
theorem rejection_message_hides_failing_candidate :
    book 0 [⟨2040, 2100⟩] (fun _ => .ok []) 1
        [⟨1980, 2040⟩, ⟨2040, 2100⟩, ⟨2100, 2160⟩]
      = ([], some (.validation "Sorry, one of your selected slots was just taken."))
    ∧ book 0 [⟨2040, 2100⟩] (fun _ => .ok []) 1
        [⟨1980, 2040⟩, ⟨2100, 2160⟩, ⟨2040, 2100⟩]
      = ([], some (.validation "Sorry, one of your selected slots was just taken.")) := by
  constructor
  · rfl
  · rfl

/-- C4 (amended): if any submitted candidate fails validation or the
availability re-check, the whole submission is rejected with zero booking rows
persisted (and a failure reason that does not name the candidate); if every
candidate passes, exactly one booking row is persisted, pending, with no
selected interval, no event id, and all provided candidates stored. -/
theorem submission_all_or_nothing :
    (∀ (nowL : Minutes) (blocked : List Interval)
       (fbFor : Interval → Except CalendarError (List Interval))
       (pid : Nat) (slots : List Interval),
       (∃ iv ∈ slots, ¬ (validateSlot nowL iv = none ∧
           is_free blocked (fbFor iv) iv.start iv.stop = .ok true)) →
       (book nowL blocked fbFor pid slots).1 = [] ∧
       (book nowL blocked fbFor pid slots).2.isSome = true) ∧
    (∀ (nowL : Minutes) (blocked : List Interval)
       (fbFor : Interval → Except CalendarError (List Interval))
       (pid : Nat) (slots : List Interval),
       slots ≠ [] → slots.length ≤ 3 →
       (∀ iv ∈ slots, validateSlot nowL iv = none ∧
           is_free blocked (fbFor iv) iv.start iv.stop = .ok true) →
       ∃ row, book nowL blocked fbFor pid slots = ([row], none) ∧
         row.participant_id = pid ∧ row.status = .pending ∧
         row.calendar_event_id = none ∧ row.selected_start_time = none ∧
         row.selected_end_time = none ∧ candidatesOf row = slots) := by
  constructor
  · intro nowL blocked fbFor pid slots hex
    have hscan : bookScan nowL blocked fbFor slots ≠ none := by
      intro hnone
      rw [bookScan_eq_none_iff] at hnone
      obtain ⟨iv, hmem, hbad⟩ := hex
      exact hbad (hnone iv hmem)
    by_cases hemp : slots.isEmpty = true
    · simp [book, hemp]
    · cases hscan2 : bookScan nowL blocked fbFor slots with
      | none => exact absurd hscan2 hscan
      | some f => simp [book, hemp, hscan2]
  · intro nowL blocked fbFor pid slots hne hlen hall
    have hscan : bookScan nowL blocked fbFor slots = none :=
      (bookScan_eq_none_iff nowL blocked fbFor slots).mpr hall
    rcases slots with _ | ⟨a, _ | ⟨b2, _ | ⟨c, _ | ⟨d, rest⟩⟩⟩⟩
    · exact absurd rfl hne
    · exact ⟨⟨pid, a, none, none, none, none, .pending, none, none⟩,
        by simp [book, hscan, insertBooking], rfl, rfl, rfl, rfl, rfl,
        by simp [candidatesOf]⟩
    · exact ⟨⟨pid, a, some b2, none, none, none, .pending, none, none⟩,
        by simp [book, hscan, insertBooking], rfl, rfl, rfl, rfl, rfl,
        by simp [candidatesOf]⟩
    · exact ⟨⟨pid, a, some b2, some c, none, none, .pending, none, none⟩,
        by simp [book, hscan, insertBooking], rfl, rfl, rfl, rfl, rfl,
        by simp [candidatesOf]⟩
    · simp [List.length_cons] at hlen

/-- Witness for C4's amended theorem: a concrete two-candidate submission that
passes every check persists exactly one pending row carrying both candidates. -/
theorem submission_all_or_nothing_witness :
    ∃ row, book 0 [] (fun _ => .ok []) 1 [⟨1980, 2040⟩, ⟨2100, 2160⟩]
        = ([row], none) ∧
      row.participant_id = 1 ∧ row.status = .pending ∧
      row.calendar_event_id = none ∧ row.selected_start_time = none ∧
      row.selected_end_time = none ∧
      candidatesOf row = [⟨1980, 2040⟩, ⟨2100, 2160⟩] :=
  submission_all_or_nothing.2 0 [] (fun _ => .ok []) 1
    [⟨1980, 2040⟩, ⟨2100, 2160⟩] (by decide) (by decide) (by decide)

/-- With the calendar service unavailable the slot loop always succeeds and
marks every slot past or unavailable. -/
theorem renderSlots_calendar_unavailable (nowL : Minutes) (token : Nat)
    (blocked : List Interval)
    (fbFor : Interval → Except CalendarError (List Interval)) :
    ∀ ivs : List Interval,
      ∃ out, renderSlots nowL token false blocked fbFor ivs = .ok out ∧
        ∀ s ∈ out, (s.start ≤ nowL → s.status = .past) ∧
          (¬ s.start ≤ nowL → s.status = .unavailable) := by
  intro ivs
  induction ivs with
  | nil => exact ⟨[], rfl, by simp⟩
  | cons iv rest ih =>
      obtain ⟨out, hout, hstat⟩ := ih
      by_cases hp : iv.start ≤ nowL
      · refine ⟨⟨.past, none, iv.start, iv.stop⟩ :: out, ?_, ?_⟩
        · simp [renderSlots, renderSlot, hp, hout]
        · intro s hs
          rcases List.mem_cons.mp hs with rfl | hs
          · exact ⟨fun _ => rfl, fun hnp => absurd hp hnp⟩
          · exact hstat s hs
      · refine ⟨⟨.unavailable, none, iv.start, iv.stop⟩ :: out, ?_, ?_⟩
        · simp [renderSlots, renderSlot, hp, hout]
        · intro s hs
          rcases List.mem_cons.mp hs with rfl | hs
          · exact ⟨fun hpp => absurd hpp hp, fun _ => rfl⟩
          · exact hstat s hs

/-- With the calendar service constructed, a free/busy failure at any non-past
slot aborts the whole slot loop with an error. -/
theorem renderSlots_crash (nowL : Minutes) (token : Nat)
    (blocked : List Interval)
    (fbFor : Interval → Except CalendarError (List Interval)) :
    ∀ ivs : List Interval,
      (∃ iv ∈ ivs, ¬ iv.start ≤ nowL ∧
         ∃ err, is_free blocked (fbFor iv) iv.start iv.stop = .error err) →
      ∃ err2, renderSlots nowL token true blocked fbFor ivs = .error err2 := by
  intro ivs
  induction ivs with
  | nil =>
      rintro ⟨iv, hmem, _⟩
      exact absurd hmem (by simp)
  | cons iv rest ih =>
      rintro ⟨iv0, hmem, hnp, err, herr⟩
      by_cases hp : iv.start ≤ nowL
      · have hmem2 : iv0 ∈ rest := by
          rcases List.mem_cons.mp hmem with rfl | h
          · exact absurd hp hnp
          · exact h
        obtain ⟨err2, hrest⟩ := ih ⟨iv0, hmem2, hnp, err, herr⟩
        exact ⟨err2, by simp [renderSlots, renderSlot, hp, hrest]⟩
      · cases hf : is_free blocked (fbFor iv) iv.start iv.stop with
        | error e2 =>
            exact ⟨e2, by simp [renderSlots, renderSlot, hp, hf]⟩
        | ok fr =>
            have hmem2 : iv0 ∈ rest := by
              rcases List.mem_cons.mp hmem with rfl | h
              · rw [herr] at hf
                exact absurd hf (by simp)
              · exact h
            obtain ⟨err2, hrest⟩ := ih ⟨iv0, hmem2, hnp, err, herr⟩
            cases fr
            · exact ⟨err2, by simp [renderSlots, renderSlot, hp, hf, hrest]⟩
            · exact ⟨err2, by simp [renderSlots, renderSlot, hp, hf, hrest]⟩

/-- C9 (counterexample): with the calendar service constructed but every
free/busy query failing, rendering the slot column of a day does crash: the
exception propagates out of the loop instead of marking slots unavailable. -/
theorem freebusy_error_crashes_slot_view :
    inviteDaySlots 0 0 7 true [] (fun _ => .error .unreachable)
      = .error .unreachable := by
  decide

/-- C9 (amended): when the calendar service cannot be constructed, the slot
view renders without crashing, marks every non-past slot unavailable and
surfaces the degraded-mode notice; but when the service is constructed and an
individual free/busy query errors at some non-past slot, the error propagates
and rendering crashes. -/
theorem calendar_unavailable_degrades_gracefully :
    (∀ (d : Nat) (nowL : Minutes) (token : Nat) (blocked : List Interval)
       (fbFor : Interval → Except CalendarError (List Interval)),
       ∃ slots, inviteDaySlots d nowL token false blocked fbFor = .ok slots ∧
         ∀ s ∈ slots, (s.start ≤ nowL → s.status = .past) ∧
           (¬ s.start ≤ nowL → s.status = .unavailable)) ∧
    inviteErrorMsg false = some "Calendar system is not connected. All slots are currently unavailable. Please contact the administrator." ∧
    (∀ (d : Nat) (nowL : Minutes) (token : Nat) (blocked : List Interval)
       (fbFor : Interval → Except CalendarError (List Interval)),
       (∃ iv ∈ dayIntervals d, ¬ iv.start ≤ nowL ∧
          ∃ err, is_free blocked (fbFor iv) iv.start iv.stop = .error err) →
       ∃ err2, inviteDaySlots d nowL token true blocked fbFor = .error err2) := by
  refine ⟨?_, rfl, ?_⟩
  · intro d nowL token blocked fbFor
    exact renderSlots_calendar_unavailable nowL token blocked fbFor (dayIntervals d)
  · intro d nowL token blocked fbFor hex
    exact renderSlots_crash nowL token blocked fbFor (dayIntervals d) hex

/-- Witness for C9's amended theorem: a concrete day whose first slot is
non-past and whose free/busy query errors makes the day's rendering error. -/
theorem calendar_unavailable_degrades_gracefully_witness :
    ∃ err2, inviteDaySlots 3 0 7 true [] (fun _ => .error .unreachable)
      = .error err2 :=
  calendar_unavailable_degrades_gracefully.2.2 3 0 7 []
    (fun _ => .error .unreachable)
    ⟨⟨3 * 1440 + 540, 3 * 1440 + 600⟩, by decide, by decide,
     .unreachable, by decide⟩

/-- C10: each day of the participant slot view carries 16 slots whose last one
starts at the following midnight (hour 0); a free non-past slot is offered
with a booking URL; yet the `book` validator rejects any one-hour future
candidate whose start hour is 0 with "Outside bookable hours.", and no
submission containing a candidate with start hour below 9 ever persists a
booking row - the last displayed slot of a day can never be booked. -/
theorem midnight_slot_never_bookable :
    (∀ d : Nat, (dayIntervals d).length = 16 ∧
       (dayIntervals d).getLast? =
         some ⟨(d + 1) * 1440, (d + 1) * 1440 + 60⟩ ∧
       hourOf ((d + 1) * 1440) = 0) ∧
    (∀ (nowL : Minutes) (token : Nat) (blocked : List Interval)
       (fbFor : Interval → Except CalendarError (List Interval)) (iv : Interval),
       ¬ iv.start ≤ nowL →
       is_free blocked (fbFor iv) iv.start iv.stop = .ok true →
       renderSlot nowL token true blocked fbFor iv =
         .ok ⟨.available, some (token, iv), iv.start, iv.stop⟩) ∧
    (∀ (nowL : Minutes) (iv : Interval),
       hourOf iv.start = 0 → iv.stop = iv.start + 60 → ¬ iv.start ≤ nowL →
       validateSlot nowL iv = some "Outside bookable hours.") ∧
    (∀ (nowL : Minutes) (blocked : List Interval)
       (fbFor : Interval → Except CalendarError (List Interval))
       (pid : Nat) (slots : List Interval),
       (∃ iv ∈ slots, hourOf iv.start < 9) →
       (book nowL blocked fbFor pid slots).1 = []) := by
  refine ⟨?_, ?_, ?_, ?_⟩
  · intro d
    refine ⟨by simp [dayIntervals], ?_, ?_⟩
    · have hr : List.range' 9 16 =
          [9, 10, 11, 12, 13, 14, 15, 16, 17, 18, 19, 20, 21, 22, 23, 24] := rfl
      simp [dayIntervals, hr, slotIntervalFor]
    · show (d + 1) * 1440 / 60 % 24 = 0
      omega
  · intro nowL token blocked fbFor iv hnp hfree
    simp [renderSlot, hnp, hfree]
  · intro nowL iv h0 hdur hnp
    unfold validateSlot
    rw [if_neg (by simp [hdur]), if_neg hnp, if_pos (by simp [h0])]
  · intro nowL blocked fbFor pid slots hex
    obtain ⟨iv, hmem, h9⟩ := hex
    have hscan : bookScan nowL blocked fbFor slots ≠ none := by
      intro hnone
      have hall := (bookScan_eq_none_iff nowL blocked fbFor slots).mp hnone
      exact validateSlot_hour_fail nowL iv h9 (hall iv hmem).1
    by_cases hemp : slots.isEmpty = true
    · simp [book, hemp]
    · cases hscan2 : bookScan nowL blocked fbFor slots with
      | none => exact absurd hscan2 hscan
      | some f => simp [book, hemp, hscan2]

/-- Witness for C10 at the first midnight slot (minute 1440, hour 0): the
validator answers "Outside bookable hours." and the submission persists
nothing. -/
theorem midnight_slot_never_bookable_witness :
    validateSlot 0 ⟨1440, 1500⟩ = some "Outside bookable hours."
    ∧ (book 0 [] (fun _ => .ok []) 1 [⟨1440, 1500⟩]).1 = [] :=
  ⟨midnight_slot_never_bookable.2.2.1 0 ⟨1440, 1500⟩ (by decide) rfl (by decide),
   midnight_slot_never_bookable.2.2.2 0 [] (fun _ => .ok []) 1 [⟨1440, 1500⟩]
     ⟨⟨1440, 1500⟩, by decide, by decide⟩⟩

end UserStudy
